import Mathlib

/-!
A shallow embedding of the ics package (decode.go): an iCalendar decoder that
reassembles folded lines, splits them into key/value properties, fills Event
records, and sorts the resulting calendar by start date.

Go strings are modeled as lists of characters, the byte stream consumed by the
bufio.Reader as a list of characters that is threaded explicitly, time.Time
values as calendar dates with the Go zero value (January 1 of year 1), and the
Go loops as fuel-based recursions whose fuel exceeds the input length (every
loop iteration consumes at least one character of input, so the fuel branch is
unreachable).
-/

namespace Ics

deriving instance DecidableEq for Except

/-- Characters of a Go string. -/
abbrev Str := List Char

/-- Character list of a string literal. -/
def str (s : String) : Str := s.data

/-- Calendar-date part of a Go time.Time value: year, month, day. -/
structure Date where
  y : Nat
  m : Nat
  d : Nat
deriving DecidableEq

/-- Go's zero time.Time is January 1 of year 1. -/
def dateZero : Date := ⟨1, 1, 1⟩

/-- time.Time.IsZero, restricted to the dates the decoder produces. -/
def Date.isZero (dt : Date) : Bool := decide (dt = dateZero)

/-- time.Time.Before restricted to dates: lexicographic on (year, month, day). -/
def dateBefore (a b : Date) : Bool :=
  decide (a.y < b.y ∨ (a.y = b.y ∧ (a.m < b.m ∨ (a.m = b.m ∧ a.d < b.d))))

/-- The Event structure of decode.go; Go's new(Event) zero value is the default. -/
structure Event where
  UID : Str := []
  Start : Date := dateZero
  End : Date := dateZero
  Summary : Str := []
  Location : Str := []
  Description : Str := []
deriving DecidableEq

/-- The Calendar structure of decode.go (field Event, a slice of events). -/
structure Calendar where
  Event : List Event
deriving DecidableEq

/-- Errors produced by the decoder. -/
inductive DecodeError where
  | badLine      -- errors.New("bad line, couldn't find key:value")  (MalformedLineError)
  | noVCalendar  -- errors.New("didn't find BEGIN:VCALENDAR")        (StructureError)
  | dateParse    -- a time.Parse failure inside decodeDate           (DateParseError)
  | eof          -- the io.EOF sentinel tested by decodeEvent; decodeLine never produces it
  | noFuel       -- artifact of the fuel-based recursion; unreachable, fuel exceeds input length
deriving DecidableEq

/-- Result of a decode call: a calendar, an error, or the nil-pointer panic
that sort.Sort(eventList(c.Event)) raises when c is still nil. -/
inductive DecodeOutcome where
  | ok (c : Calendar)
  | fail (e : DecodeError)
  | crash
deriving DecidableEq

/-- bufio.Reader.ReadBytes up to and including the first newline; the second
component is the unread remainder.  When no newline is present the whole input
is returned together with an empty remainder (the io.EOF case of the source,
in which the partial data is still handed back). -/
def readRawLine : List Char → List Char × List Char
  | [] => ([], [])
  | c :: rest =>
    if c = '\n' then ([c], rest)
    else
      match readRawLine rest with
      | (b, r) => (c :: b, r)

/-- The statement b = b[1:] executed by decodeLine when b[0] is a space
(continuation-line unfolding). -/
def stripLead : List Char → List Char
  | ' ' :: t => t
  | b => b

/-- The accumulation loop of decodeLine (decode.go): read raw lines into buf,
unfolding a following raw line whenever the peeked next byte is a space.  An
empty ReadBytes result (which happens exactly at end of input) ends the loop
with buf unchanged; note that the raw line keeps its newline terminator in
buf, and that the io.EOF from ReadBytes is assigned to a variable that shadows
the named return, so it is never propagated.  Fuel-based: each iteration
consumes at least one character, so the initial fuel input.length + 1 never
runs out. -/
def decodeLineCoreF : Nat → List Char → List Char → List Char × List Char
  | 0, input, buf => (buf, input)
  | fuel + 1, input, buf =>
    match readRawLine input with
    | (b, rest) =>
      if b = [] then (buf, rest)
      else
        let buf2 := buf ++ stripLead b
        match rest with
        | [] => (buf2, [])
        | c :: t => if c = ' ' then decodeLineCoreF fuel (c :: t) buf2 else (buf2, c :: t)

/-- The assembled logical line of decodeLine together with the unread input. -/
def decodeLineCore (input : List Char) : List Char × List Char :=
  decodeLineCoreF (input.length + 1) input []

/-- strings.SplitN(s, ":", 2): the part before the first colon and the part
after it; none when the string has no colon (SplitN then yields one part). -/
def splitFirst : Str → Option (Str × Str)
  | [] => none
  | c :: rest =>
    if c = ':' then some ([], rest)
    else
      match splitFirst rest with
      | none => none
      | some (k, v) => some (c :: k, v)

/-- strings.Trim: remove leading and trailing characters of the cutset. -/
def trimChars (cut : List Char) (s : Str) : Str :=
  ((s.dropWhile fun c => cut.contains c).reverse.dropWhile fun c => cut.contains c).reverse

/-- Splitting and trimming stage of decodeLine: split the logical line at the
first colon (an absent colon is the "bad line" error) and trim both parts,
of spaces, carriage returns and newlines in removeCRLF mode, of spaces only
otherwise. -/
def finishLine (removeCRLF : Bool) (buf : Str) : Except DecodeError (Str × Str) :=
  match splitFirst buf with
  | none => .error .badLine
  | some (k, v) =>
    if removeCRLF then .ok (trimChars (str " \r\n") k, trimChars (str " \r\n") v)
    else .ok (trimChars (str " ") k, trimChars (str " ") v)

/-- decodeLine of decode.go: assemble one logical line and split it into a
key/value pair, returning also the unread input. -/
def decodeLine (removeCRLF : Bool) (input : List Char) :
    Except DecodeError ((Str × Str) × List Char) :=
  match decodeLineCore input with
  | (buf, rest) =>
    match finishLine removeCRLF buf with
    | .error e => .error e
    | .ok kv => .ok (kv, rest)

/-- Tests whether a decodeLine result is the io.EOF sentinel that decodeEvent
inspects (the source function can never actually produce it, because the
ReadBytes error is assigned to a shadowing variable). -/
def isEofError : Except DecodeError ((Str × Str) × List Char) → Bool
  | .error .eof => true
  | _ => false

/-- Leading-match test used by replaceAll. -/
def leadsWith : List Char → List Char → Bool
  | [], _ => true
  | _ :: _, [] => false
  | p :: ps, c :: cs => p == c && leadsWith ps cs

/-- strings.Replace(s, old, new, -1): replace every non-overlapping occurrence
of the pattern, scanning left to right.  Fuel-based; every call below uses a
non-empty pattern, and each step consumes at least one character, so the
initial fuel s.length + 1 never runs out. -/
def replaceAllF : Nat → List Char → List Char → List Char → List Char
  | 0, _, _, l => l
  | _ + 1, _, _, [] => []
  | fuel + 1, pat, rep, c :: rest =>
    if !pat.isEmpty && leadsWith pat (c :: rest) then
      rep ++ replaceAllF fuel pat rep ((c :: rest).drop pat.length)
    else
      c :: replaceAllF fuel pat rep rest

/-- strings.Replace with n = -1, at sufficient fuel. -/
def replaceAll (pat rep s : List Char) : List Char :=
  replaceAllF (s.length + 1) pat rep s

/-- UnescapeText of decode.go: the six strings.Replace steps in source order. -/
def UnescapeText (s : Str) : Str :=
  replaceAll (str "&nbsp") (str " ")
    (replaceAll (str "\n") (str " ")
      (replaceAll (str "\\\\") (str "\\")
        (replaceAll (str "\\n") (str "\n")
          (replaceAll (str "\\,") (str ",")
            (replaceAll (str "\\;") (str ";") s)))))

/-- The Gregorian leap-year rule used by Go's time package. -/
def isLeap (y : Nat) : Bool := decide (y % 4 = 0 ∧ (y % 100 ≠ 0 ∨ y % 400 = 0))

/-- Days in a month, as validated by time.Parse. -/
def daysInMonth (y m : Nat) : Nat :=
  if m = 2 then (if isLeap y then 29 else 28)
  else if m = 4 ∨ m = 6 ∨ m = 9 ∨ m = 11 then 30
  else 31

/-- Numeric value of a digit string. -/
def digitsToNat (s : List Char) : Nat :=
  s.foldl (fun n c => n * 10 + (c.toNat - 48)) 0

/-- decodeDate of decode.go: a value shorter than 8 characters yields the zero
time with no error; otherwise the first 8 characters are parsed with layout
20060102 (time.Parse requires digits and in-range month and day; anything
after the first 8 characters is ignored). -/
def decodeDate (value : Str) : Except DecodeError Date :=
  if value.length < 8 then .ok dateZero
  else
    let s8 := value.take 8
    if s8.all Char.isDigit then
      let y := digitsToNat (s8.take 4)
      let m := digitsToNat ((s8.drop 4).take 2)
      let d := digitsToNat (s8.drop 6)
      if 1 ≤ m ∧ m ≤ 12 ∧ 1 ≤ d ∧ d ≤ daysInMonth y m then .ok ⟨y, m, d⟩
      else .error .dateParse
    else .error .dateParse

/-- The two sequential key rewrites at the top of the decodeEvent loop:
a key whose first 7 characters are DTSTART becomes DTSTART, then a key whose
first 5 characters are DTEND becomes DTEND. -/
def normalizeKey (key : Str) : Str :=
  let k1 := if 7 ≤ key.length ∧ key.take 7 = str "DTSTART" then str "DTSTART" else key
  if 5 ≤ k1.length ∧ k1.take 5 = str "DTEND" then str "DTEND" else k1

/-- What one iteration of the decodeEvent loop does with a key/value pair. -/
inductive EventStep where
  | done                     -- END:VEVENT, return the event
  | cont (e : Event)         -- keep looping with the (possibly updated) event
  | failed (er : DecodeError) -- a decodeDate error, returned at the next loop top
deriving DecidableEq

/-- The body of the decodeEvent loop (decode.go): normalize the key, unescape
the value, then dispatch by the switch statement.  An END with a value other
than VEVENT is deliberately ignored (continue); unrecognized keys fall through
the switch unchanged. -/
def eventDispatch (key0 value0 : Str) (e : Event) : EventStep :=
  let key := normalizeKey key0
  let value := UnescapeText value0
  if key = str "END" then
    (if value = str "VEVENT" then .done else .cont e)
  else if key = str "UID" then .cont { e with UID := value }
  else if key = str "DTSTART" then
    (match decodeDate value with
     | .error er => .failed er
     | .ok dt => .cont { e with Start := dt })
  else if key = str "DTSTART;VALUE=DATE" then
    (match decodeDate value with
     | .error er => .failed er
     | .ok dt => .cont { e with Start := dt })
  else if key = str "DTEND" then
    (match decodeDate value with
     | .error er => .failed er
     | .ok dt => .cont { e with End := dt })
  else if key = str "DTEND;VALUE=DATE" then
    (match decodeDate value with
     | .error er => .failed er
     | .ok dt => .cont { e with End := dt })
  else if key = str "SUMMARY" then .cont { e with Summary := value }
  else if key = str "LOCATION" then .cont { e with Location := value }
  else if key = str "DESCRIPTION" then .cont { e with Description := value }
  else .cont e

/-- The decodeEvent loop (decode.go).  When decodeLine fails, the switch runs
on the empty key (a no-op) and the next loop top returns the partial event if
the error is io.EOF and the error otherwise; the io.EOF case is unreachable
because decodeLine never returns it.  Fuel-based as above. -/
def decodeEventLoopF : Nat → Bool → List Char → Event → Except DecodeError (Event × List Char)
  | 0, _, _, _ => .error .noFuel
  | fuel + 1, removeCRLF, input, e =>
    match decodeLine removeCRLF input with
    | .error er => if er = .eof then .ok (e, input) else .error er
    | .ok ((key0, value0), rest) =>
      match eventDispatch key0 value0 e with
      | .done => .ok (e, rest)
      | .cont e2 => decodeEventLoopF fuel removeCRLF rest e2
      | .failed er => .error er

/-- decodeEvent of decode.go, starting from the zero Event. -/
def decodeEvent (removeCRLF : Bool) (input : List Char) :
    Except DecodeError (Event × List Char) :=
  decodeEventLoopF (input.length + 1) removeCRLF input {}

/-- The BEGIN block of the decode loop: the first BEGIN must carry VCALENDAR
(otherwise the "didn't find BEGIN:VCALENDAR" error) and allocates the
Calendar; a BEGIN:VEVENT runs decodeEvent and appends the event. -/
def beginStep (removeCRLF : Bool) (key value : Str) (rest : List Char)
    (c : Option Calendar) : Except DecodeError (Option Calendar × List Char) :=
  if key = str "BEGIN" then
    if c = none ∧ value ≠ str "VCALENDAR" then .error .noVCalendar
    else
      let cal := match c with
        | none => (⟨[]⟩ : Calendar)
        | some cal0 => cal0
      if value = str "VEVENT" then
        match decodeEvent removeCRLF rest with
        | .error er => .error er
        | .ok (ev, rest2) => .ok (some ⟨cal.Event ++ [ev]⟩, rest2)
      else .ok (some cal, rest)
  else .ok (c, rest)

/-- eventList.Less of decode.go: an event with zero Start is less than
everything (even another zero-Start event); otherwise compare with Before. -/
def eventLess (a b : Event) : Bool :=
  if a.Start.isZero then true
  else if b.Start.isZero then false
  else dateBefore a.Start b.Start

/-- One insertion step of the insertion sort that models sort.Sort. -/
def insertEvent (x : Event) : List Event → List Event
  | [] => [x]
  | y :: ys => if eventLess x y then x :: y :: ys else y :: insertEvent x ys

/-- sort.Sort(eventList(...)) of decode.go, modeled as an insertion sort that
uses the source's Less comparator. -/
def sortEvents : List Event → List Event
  | [] => []
  | x :: xs => insertEvent x (sortEvents xs)

/-- The non-strict comparison induced by the sort: a zero Start precedes
everything, set Starts are compared by date.  Used to state sortedness. -/
def eventLe (a b : Event) : Bool :=
  if a.Start.isZero then true
  else if b.Start.isZero then false
  else !dateBefore b.Start a.Start

/-- The decode loop (decode.go): read a line, run the BEGIN block, stop at
END:VCALENDAR.  At the stop, a still-nil Calendar makes
sort.Sort(eventList(c.Event)) dereference a nil pointer (crash); otherwise the
events are sorted and the calendar returned.  Fuel-based as above. -/
def decodeLoopF : Nat → Bool → List Char → Option Calendar → DecodeOutcome
  | 0, _, _, _ => .fail .noFuel
  | fuel + 1, removeCRLF, input, c =>
    match decodeLine removeCRLF input with
    | .error er => .fail er
    | .ok ((key, value), rest) =>
      match beginStep removeCRLF key value rest c with
      | .error er => .fail er
      | .ok (c2, rest2) =>
        if key = str "END" ∧ value = str "VCALENDAR" then
          match c2 with
          | none => .crash
          | some cal => .ok ⟨sortEvents cal.Event⟩
        else decodeLoopF fuel removeCRLF rest2 c2

/-- decode of decode.go. -/
def decode (removeCRLF : Bool) (input : List Char) : DecodeOutcome :=
  decodeLoopF (input.length + 1) removeCRLF input none

/-- Decode of decode.go (trimming mode). -/
def Decode (input : List Char) : DecodeOutcome := decode true input

/-- DecodePreserveCRLF of decode.go (preserving mode). -/
def DecodePreserveCRLF (input : List Char) : DecodeOutcome := decode false input

/-! ## Helper lemmas -/

theorem splitFirst_eq_none (s : Str) (h : ':' ∉ s) : splitFirst s = none := by
  induction s with
  | nil => rfl
  | cons c cs ih =>
    simp only [List.mem_cons, not_or] at h
    have hc : ¬ c = ':' := fun e => h.1 e.symm
    simp [splitFirst, hc, ih h.2]

theorem finishLine_ne_eof (rm : Bool) (buf : Str) : finishLine rm buf ≠ .error .eof := by
  unfold finishLine
  rcases splitFirst buf with _ | ⟨k, v⟩
  · simp
  · cases rm
    all_goals simp

/-- decodeLine written with projections instead of the destructuring match. -/
theorem decodeLine_eq (rm : Bool) (input : List Char) :
    decodeLine rm input =
      match finishLine rm (decodeLineCore input).1 with
      | .error e => .error e
      | .ok kv => .ok (kv, (decodeLineCore input).2) := by
  unfold decodeLine
  rcases decodeLineCore input with ⟨buf, rest⟩
  rfl

theorem eventLe_trans (a b c : Event) (hab : eventLe a b = true) (hbc : eventLe b c = true) :
    eventLe a c = true := by
  simp only [eventLe, dateBefore] at hab hbc ⊢
  by_cases ha : a.Start.isZero = true <;> by_cases hb : b.Start.isZero = true <;>
    by_cases hc : c.Start.isZero = true <;>
    simp [ha, hb, hc] at hab hbc ⊢ <;> omega

theorem eventLess_le (a b : Event) (h : eventLess a b = true) : eventLe a b = true := by
  simp only [eventLess, dateBefore] at h
  simp only [eventLe, dateBefore]
  by_cases ha : a.Start.isZero = true <;> by_cases hb : b.Start.isZero = true <;>
    simp [ha, hb] at h ⊢ <;> omega

theorem eventLess_not_le (a b : Event) (h : eventLess a b = false) : eventLe b a = true := by
  simp only [eventLess, dateBefore] at h
  simp only [eventLe, dateBefore]
  by_cases ha : a.Start.isZero = true <;> by_cases hb : b.Start.isZero = true <;>
    simp [ha, hb] at h ⊢ <;> omega

theorem mem_insertEvent {x z : Event} :
    ∀ {l : List Event}, z ∈ insertEvent x l → z = x ∨ z ∈ l := by
  intro l
  induction l with
  | nil =>
    intro h
    simp [insertEvent] at h
    exact Or.inl h
  | cons y ys ih =>
    intro h
    rw [insertEvent] at h
    split at h
    · rcases List.mem_cons.mp h with h1 | h1
      · exact Or.inl h1
      · exact Or.inr h1
    · rcases List.mem_cons.mp h with h1 | h1
      · exact Or.inr (by simp [h1])
      · rcases ih h1 with h2 | h2
        · exact Or.inl h2
        · exact Or.inr (List.mem_cons_of_mem y h2)

theorem pairwise_insertEvent (x : Event) :
    ∀ l : List Event, (l.Pairwise fun a b => eventLe a b = true) →
      (insertEvent x l).Pairwise fun a b => eventLe a b = true := by
  intro l
  induction l with
  | nil =>
    intro _
    simp [insertEvent]
  | cons y ys ih =>
    intro h
    rcases List.pairwise_cons.mp h with ⟨hy, hys⟩
    rw [insertEvent]
    split
    · rename_i hxy
      refine List.pairwise_cons.mpr ⟨?_, h⟩
      intro z hz
      rcases List.mem_cons.mp hz with h1 | h1
      · rw [h1]
        exact eventLess_le x y hxy
      · exact eventLe_trans x y z (eventLess_le x y hxy) (hy z h1)
    · rename_i hxy
      have hxy2 : eventLess x y = false := by
        cases hel : eventLess x y
        · rfl
        · exact absurd hel hxy
      refine List.pairwise_cons.mpr ⟨?_, ih hys⟩
      intro z hz
      rcases mem_insertEvent hz with h1 | h1
      · rw [h1]
        exact eventLess_not_le x y hxy2
      · exact hy z h1

theorem pairwise_sortEvents :
    ∀ l : List Event, (sortEvents l).Pairwise fun a b => eventLe a b = true := by
  intro l
  induction l with
  | nil => simp [sortEvents]
  | cons x xs ih =>
    rw [sortEvents]
    exact pairwise_insertEvent x _ ih

theorem decodeLoopF_sorted :
    ∀ (fuel : Nat) (rm : Bool) (input : List Char) (c : Option Calendar) (cal : Calendar),
      decodeLoopF fuel rm input c = .ok cal →
      cal.Event.Pairwise fun a b => eventLe a b = true := by
  intro fuel
  induction fuel with
  | zero =>
    intro rm input c cal h
    simp [decodeLoopF] at h
  | succ n ih =>
    intro rm input c cal h
    simp only [decodeLoopF] at h
    split at h
    · simp at h
    · split at h
      · simp at h
      · split at h
        · split at h
          · simp at h
          · injection h with h2
            subst h2
            exact pairwise_sortEvents _
        · exact ih _ _ _ _ h

theorem normalizeKey_dtstart (key : Str) (h : ∃ t, key = str "DTSTART" ++ t) :
    normalizeKey key = str "DTSTART" := by
  obtain ⟨t, rfl⟩ := h
  have h7 : (str "DTSTART" ++ t).take 7 = str "DTSTART" := by
    have h0 : (str "DTSTART").length = 7 := rfl
    rw [← h0, List.take_left]
  have hlen : 7 ≤ (str "DTSTART" ++ t).length := by
    rw [List.length_append]
    have h0 : (str "DTSTART").length = 7 := rfl
    omega
  have hne : ¬(5 ≤ (str "DTSTART").length ∧ (str "DTSTART").take 5 = str "DTEND") := by decide
  simp only [normalizeKey]
  rw [if_pos (show 7 ≤ (str "DTSTART" ++ t).length ∧
        (str "DTSTART" ++ t).take 7 = str "DTSTART" from ⟨hlen, h7⟩)]
  rw [if_neg hne]

theorem normalizeKey_dtend (key : Str) (h : ∃ t, key = str "DTEND" ++ t) :
    normalizeKey key = str "DTEND" := by
  obtain ⟨t, rfl⟩ := h
  have h5 : (str "DTEND" ++ t).take 5 = str "DTEND" := by
    have h0 : (str "DTEND").length = 5 := rfl
    rw [← h0, List.take_left]
  have hlen : 5 ≤ (str "DTEND" ++ t).length := by
    rw [List.length_append]
    have h0 : (str "DTEND").length = 5 := rfl
    omega
  have hns : ¬(7 ≤ (str "DTEND" ++ t).length ∧ (str "DTEND" ++ t).take 7 = str "DTSTART") := by
    rintro ⟨-, ht⟩
    rw [List.take_append_eq_append_take] at ht
    have e1 : (str "DTEND").take 7 = ['D', 'T', 'E', 'N', 'D'] := rfl
    have e2 : (7 - (str "DTEND").length) = 2 := rfl
    rw [e1, e2] at ht
    have e3 : str "DTSTART" = ['D', 'T', 'S', 'T', 'A', 'R', 'T'] := rfl
    rw [e3] at ht
    simp only [List.cons_append, List.nil_append] at ht
    injection ht with g1 ht
    injection ht with g2 ht
    injection ht with g3 ht
    exact absurd g3 (by decide)
  simp only [normalizeKey]
  rw [if_neg (show ¬(7 ≤ (str "DTEND" ++ t).length ∧
        (str "DTEND" ++ t).take 7 = str "DTSTART") from hns)]
  rw [if_pos (show 5 ≤ (str "DTEND" ++ t).length ∧
        (str "DTEND" ++ t).take 5 = str "DTEND" from ⟨hlen, h5⟩)]

/-! ## The claims -/

/-- Claim C1: decoding the minimal calendar consisting of the lines
BEGIN:VCALENDAR, BEGIN:VEVENT, UID:1@test, DTSTART:20230101, DTEND:20230102,
SUMMARY:Test, END:VEVENT, END:VCALENDAR succeeds with exactly one Event whose
UID is 1@test, Start is 2023-01-01, End is 2023-01-02 and Summary is Test. -/
theorem c1_minimal_calendar :
    decode true (str "BEGIN:VCALENDAR\nBEGIN:VEVENT\nUID:1@test\nDTSTART:20230101\nDTEND:20230102\nSUMMARY:Test\nEND:VEVENT\nEND:VCALENDAR\n") =
      .ok ⟨[{ UID := str "1@test", Start := ⟨2023, 1, 1⟩, End := ⟨2023, 1, 2⟩,
              Summary := str "Test" }]⟩ := by
  decide

/-- Claim C2 (refuted; the claim records the code's visible intent): the
io.EOF-tolerance branch of decodeEvent is dead code, because decodeLine
assigns the ReadBytes io.EOF to a shadowing variable and instead fails on the
empty buffer, so end-of-stream inside an event yields the bad-line error
rather than the partially filled Event: no decodeLine result is ever the
io.EOF sentinel, and decoding a calendar truncated after UID:1@test fails. -/
theorem c2_eof_mid_event :
    (∀ (removeCRLF : Bool) (input : List Char),
        isEofError (decodeLine removeCRLF input) = false) ∧
    decode true (str "BEGIN:VCALENDAR\nBEGIN:VEVENT\nUID:1@test\n") = .fail .badLine := by
  refine ⟨?_, by decide⟩
  intro rm input
  rw [decodeLine_eq]
  have hne := finishLine_ne_eof rm (decodeLineCore input).1
  rcases hf : finishLine rm (decodeLineCore input).1 with er | kv
  · cases er with
    | eof => exact absurd hf hne
    | badLine => rfl
    | noVCalendar => rfl
    | dateParse => rfl
    | noFuel => rfl
  · rfl

/-- Claim C3 (refuted; the claim records the code's visible intent): a blank
raw line is not skipped.  ReadBytes keeps the newline terminator, so a blank
line arrives as the one-character line made of a newline, never as the empty
slice the skip tests for; the newline-only logical line has no colon and
aborts the decode with the bad-line error, whereas the same input without the
blank line decodes fine. -/
theorem c3_blank_line_fatal :
    decode true (str "BEGIN:VCALENDAR\nBEGIN:VEVENT\nUID:1@test\n\nSUMMARY:Test\nEND:VEVENT\nEND:VCALENDAR\n") =
      .fail .badLine ∧
    decode true (str "BEGIN:VCALENDAR\nBEGIN:VEVENT\nUID:1@test\nSUMMARY:Test\nEND:VEVENT\nEND:VCALENDAR\n") =
      .ok ⟨[{ UID := str "1@test", Summary := str "Test" }]⟩ := by
  decide

/-- Claim C4 (refuted; the claim records the code's visible intent): unfolding
a folded line strips the continuation's leading space but keeps the previous
raw line's newline terminator in the buffer, so the folded property
SUMMARY:foo / space bar unfolds to the value foo-newline-bar, not foobar; in
an event the embedded newline is then collapsed to a space by UnescapeText,
giving Summary "foo bar" instead of the claimed "foobar". -/
theorem c4_folding_keeps_newline :
    decodeLine true (str "SUMMARY:foo\n bar\n") = .ok ((str "SUMMARY", str "foo\nbar"), []) ∧
    decodeLine true (str "SUMMARY:foobar\n") = .ok ((str "SUMMARY", str "foobar"), []) ∧
    str "foo\nbar" ≠ str "foobar" ∧
    decode true (str "BEGIN:VCALENDAR\nBEGIN:VEVENT\nSUMMARY:foo\n bar\nEND:VEVENT\nEND:VCALENDAR\n") =
      .ok ⟨[{ Summary := str "foo bar" }]⟩ := by
  decide

/-- Claim C5: a DTSTART or DTEND value shorter than 8 characters leaves the
date at its zero value and raises no error, and a decode whose only date
property is DTSTART:2023 succeeds with Start unset. -/
theorem c5_short_date_unset (v : Str) (h : v.length < 8) :
    decodeDate v = .ok dateZero ∧
    decode true (str "BEGIN:VCALENDAR\nBEGIN:VEVENT\nDTSTART:2023\nEND:VEVENT\nEND:VCALENDAR\n") =
      .ok ⟨[{}]⟩ := by
  refine ⟨?_, by decide⟩
  unfold decodeDate
  rw [if_pos h]

theorem c5_short_date_unset_witness :
    decodeDate (str "2023") = .ok dateZero ∧
    decode true (str "BEGIN:VCALENDAR\nBEGIN:VEVENT\nDTSTART:2023\nEND:VEVENT\nEND:VCALENDAR\n") =
      .ok ⟨[{}]⟩ :=
  c5_short_date_unset (str "2023") (by decide)

/-- Claim C6 (amended): after a successful decode the events are pairwise
ordered by the non-strict comparison in which a zero Start precedes every
event and set Starts are ascending; under the sort's Less an event with zero
Start is less than every event — including another zero-Start event — and a
set-Start event is never less than a zero-Start one.  (The original claim
that two zero-Start events are mutually not-less is refuted by the
counterexample below.) -/
theorem c6_sorted_amended :
    (∀ (removeCRLF : Bool) (input : List Char) (cal : Calendar),
        decode removeCRLF input = .ok cal →
        cal.Event.Pairwise fun a b => eventLe a b = true) ∧
    (∀ a b : Event, a.Start = dateZero → eventLess a b = true) ∧
    (∀ a b : Event, a.Start ≠ dateZero → b.Start = dateZero → eventLess a b = false) := by
  refine ⟨?_, ?_, ?_⟩
  · intro rm input cal h
    exact decodeLoopF_sorted _ rm input none cal h
  · intro a b ha
    simp [eventLess, Date.isZero, ha]
  · intro a b ha hb
    simp [eventLess, Date.isZero, ha, hb]

/-- Claim C6, counterexample to the original wording: two events that both
have an unset Start each compare as less than the other under eventList.Less
(the comparator returns true whenever its first argument's Start is zero). -/
theorem c6_both_unset_both_less :
    eventLess { UID := str "a" } { UID := str "b" } = true ∧
    eventLess { UID := str "b" } { UID := str "a" } = true := by
  decide

theorem c6_sorted_witness :
    (Calendar.mk [{}, { Start := ⟨2023, 2, 2⟩ }]).Event.Pairwise
      (fun a b => eventLe a b = true) ∧
    eventLess { UID := str "a" } {} = true ∧
    eventLess { Start := ⟨2023, 2, 2⟩ } {} = false :=
  ⟨c6_sorted_amended.1 true
      (str "BEGIN:VCALENDAR\nBEGIN:VEVENT\nDTSTART:20230202\nEND:VEVENT\nBEGIN:VEVENT\nEND:VEVENT\nEND:VCALENDAR\n")
      (Calendar.mk [{}, { Start := ⟨2023, 2, 2⟩ }]) (by decide),
   c6_sorted_amended.2.1 _ _ rfl,
   c6_sorted_amended.2.2 _ _ (by decide) rfl⟩

/-- Claim C7: UnescapeText unescapes the escaped semicolon and comma, turns
the two-character escape backslash-n into a newline that then collapses to a
single space, and turns the literal substring &nbsp into a single space. -/
theorem c7_unescape_examples :
    UnescapeText (str "A\\;B\\,C") = str "A;B,C" ∧
    UnescapeText (str "Line1\\nLine2") = str "Line1 Line2" ∧
    UnescapeText (str "a&nbspb") = str "a b" := by
  decide

/-- Claim C8: inside event decoding every key beginning with DTSTART is
dispatched exactly like the bare key DTSTART, every key beginning with DTEND
like DTEND, and the calendar with DTSTART;VALUE=DATE:20230505 decodes to the
same result as the one with DTSTART:20230505. -/
theorem c8_date_key_collapse :
    (∀ (key value : Str) (e : Event), (∃ t, key = str "DTSTART" ++ t) →
        eventDispatch key value e = eventDispatch (str "DTSTART") value e) ∧
    (∀ (key value : Str) (e : Event), (∃ t, key = str "DTEND" ++ t) →
        eventDispatch key value e = eventDispatch (str "DTEND") value e) ∧
    decode true (str "BEGIN:VCALENDAR\nBEGIN:VEVENT\nDTSTART;VALUE=DATE:20230505\nEND:VEVENT\nEND:VCALENDAR\n") =
      decode true (str "BEGIN:VCALENDAR\nBEGIN:VEVENT\nDTSTART:20230505\nEND:VEVENT\nEND:VCALENDAR\n") := by
  refine ⟨?_, ?_, by decide⟩
  · intro key value e h
    simp only [eventDispatch]
    rw [normalizeKey_dtstart key h,
      show normalizeKey (str "DTSTART") = str "DTSTART" from rfl]
  · intro key value e h
    simp only [eventDispatch]
    rw [normalizeKey_dtend key h,
      show normalizeKey (str "DTEND") = str "DTEND" from rfl]

theorem c8_date_key_collapse_witness :
    eventDispatch (str "DTSTART;VALUE=DATE") (str "20230505") {} =
      eventDispatch (str "DTSTART") (str "20230505") {} ∧
    eventDispatch (str "DTEND;VALUE=DATE") (str "20230505") {} =
      eventDispatch (str "DTEND") (str "20230505") {} :=
  ⟨c8_date_key_collapse.1 _ _ _ ⟨str ";VALUE=DATE", by decide⟩,
   c8_date_key_collapse.2.1 _ _ _ ⟨str ";VALUE=DATE", by decide⟩⟩

/-- Claim C9: a logical line with no colon makes the split-and-trim stage of
the line reader fail with the bad-line (malformed line) error, and the error
is fatal: a decode whose input contains the line NOCOLONHERE aborts with that
error and returns no Calendar. -/
theorem c9_missing_colon (buf : Str) (h : ':' ∉ buf) :
    (∀ removeCRLF : Bool, finishLine removeCRLF buf = .error .badLine) ∧
    decode true (str "BEGIN:VCALENDAR\nNOCOLONHERE\nEND:VCALENDAR\n") = .fail .badLine := by
  refine ⟨?_, by decide⟩
  intro rm
  unfold finishLine
  rw [splitFirst_eq_none buf h]

theorem c9_missing_colon_witness :
    finishLine true (str "NOCOLONHERE\n") = .error .badLine ∧
    decode true (str "BEGIN:VCALENDAR\nNOCOLONHERE\nEND:VCALENDAR\n") = .fail .badLine :=
  ⟨(c9_missing_colon (str "NOCOLONHERE\n") (by decide)).1 true,
   (c9_missing_colon (str "NOCOLONHERE\n") (by decide)).2⟩

/-- Claim C10: when the first key/value pair read by the top-level loop is
END with value VCALENDAR, the loop breaks with the Calendar pointer still
nil and sort.Sort(eventList(c.Event)) dereferences it, so decode crashes
instead of returning a Calendar or an error. -/
theorem c10_end_without_begin (removeCRLF : Bool) (input rest : List Char)
    (h : decodeLine removeCRLF input = .ok ((str "END", str "VCALENDAR"), rest)) :
    decode removeCRLF input = .crash := by
  unfold decode
  simp only [decodeLoopF, h]
  simp only [beginStep]
  rw [if_neg (by decide : ¬ (str "END" = str "BEGIN"))]
  simp

theorem c10_end_without_begin_witness : decode true (str "END:VCALENDAR\n") = .crash :=
  c10_end_without_begin true (str "END:VCALENDAR\n") [] (by decide)

end Ics
